import Mathlib

/-!
Verification development for the predicate-expression engine in
`src/predicates/expr_parser_test2.ipynb` (the `Expr` class of cell 5).

The engine is shallowly embedded over `List Char` (a Python string is a
sequence of characters) and a dynamic `Value` type (a Python object).
Python exceptions raised during evaluation (`ValueError` for a clause that
does not match the clause regex, `TypeError` for an unsupported ordering
comparison) are modelled by `Except EvalErr`.
-/

set_option autoImplicit false
set_option maxRecDepth 4000

namespace Predicates

/-- A dynamic Python value: the structured objects the expression is tested
against, and the literal values produced by evaluating the right-hand side
of a clause.  `float` is carried as an exact rational: every comparison the
engine performs on floats is an exact comparison of the represented values,
and all concrete inputs in this development are exactly representable. -/
inductive Value where
  | none
  | bool (b : Bool)
  | int (n : Int)
  | float (q : Rat)
  | str (s : List Char)
  | list (xs : List Value)
  | dict (kvs : List (List Char × Value))

/-- The six comparison operators of the clause grammar. -/
inductive CompOp where
  | eq | ne | gt | lt | ge | le
deriving DecidableEq

/-- The two logical connectors. -/
inductive LogOp where
  | and | or
deriving DecidableEq

/-- Python exceptions that can escape `Expr.test`: `malformedClause`
models the `ValueError("Invalid expression format: ...")` raised when a
clause does not match the clause regex (the ParseError::MalformedClause of
the spec, carrying the raw clause text), and `uncomparable` models the
`TypeError` raised by an ordering comparison on incompatible operands (the
EvalError::Uncomparable of the spec). -/
inductive EvalErr where
  | malformedClause (text : List Char)
  | uncomparable
deriving DecidableEq

/-- The apostrophe character (Python quote char). -/
def quoteChar2 : Char := Char.ofNat 39

/-- The backslash character. -/
def backslashChar : Char := Char.ofNat 92

/-- A Python quote character: double or single quote.  The splitter and the
string-literal parser treat the two kinds identically. -/
def isQuoteChar (c : Char) : Bool := c == '"' || c == quoteChar2

/-- Whitespace for the purposes of the regex `\s` class and `str.strip`
(ASCII fragment). -/
def isPySpace (c : Char) : Bool :=
  c == ' ' || c == Char.ofNat 9 || c == Char.ofNat 10 || c == Char.ofNat 13
    || c == Char.ofNat 11 || c == Char.ofNat 12

/-- A character of the regex `\w` class (ASCII fragment:
alphanumeric or underscore). -/
def isPyWordChar (c : Char) : Bool := c.isAlphanum || c == '_'

/-- A character admitted by the field group `[\w\.]` of the clause regex. -/
def isFieldChar (c : Char) : Bool := isPyWordChar c || c == '.'

/-- Models Python `str.strip()`: remove leading and trailing whitespace. -/
def pyStrip (l : List Char) : List Char :=
  ((l.dropWhile isPySpace).reverse.dropWhile isPySpace).reverse

/-- Python slice `l[a:b]`. -/
def slice (l : List Char) (a b : Nat) : List Char := (l.drop a).take (b - a)

/-- Does `l` start with `pat`? -/
def startsWith : List Char → List Char → Bool
  | _, [] => true
  | [], _ :: _ => false
  | a :: as, b :: bs => a == b && startsWith as bs

/-- Python `pat in l`: does `pat` occur as a contiguous substring of `l`? -/
def containsSub (pat : List Char) : List Char → Bool
  | [] => startsWith [] pat
  | c :: t => startsWith (c :: t) pat || containsSub pat t

/-- Numeric value of a list of decimal digit characters. -/
def digitsVal (ds : List Char) : Nat :=
  ds.foldl (fun n c => 10 * n + (c.toNat - 48)) 0

/-- A valid Python 3 decimal integer-literal digit string: nonempty, all
digits, and no leading zero unless the whole string is zeros. -/
def decDigits (ds : List Char) : Bool :=
  !ds.isEmpty && ds.all Char.isDigit &&
    (match ds with
     | '0' :: rest => rest.all (fun c => c == '0')
     | _ => true)

/-- The numeric view Python uses for `==` and ordering: booleans are the
integers 0 and 1, ints and floats compare exactly. -/
def numVal : Value → Option Rat
  | Value.bool b => some (if b then 1 else 0)
  | Value.int n => some (n : Rat)
  | Value.float q => some q
  | _ => Option.none

/-- The integral view Python uses for int arithmetic: booleans are the
integers 0 and 1; floats are excluded (float arithmetic yields floats). -/
def asIntNum : Value → Option Int
  | Value.bool b => some (if b then 1 else 0)
  | Value.int n => some n
  | _ => Option.none

/-- Three-way comparison of rationals. -/
def ratCmp (x y : Rat) : Ordering :=
  if x < y then Ordering.lt else if y < x then Ordering.gt else Ordering.eq

/-- Lexicographic three-way comparison of character lists by code point,
as Python compares strings. -/
def cmpCharList : List Char → List Char → Ordering
  | [], [] => Ordering.eq
  | [], _ :: _ => Ordering.lt
  | _ :: _, [] => Ordering.gt
  | a :: as, b :: bs =>
    if a < b then Ordering.lt else if b < a then Ordering.gt else cmpCharList as bs

/-- `l` repeated `n` times (empty for a non-positive count), the Python
`*` repetition for sequences. -/
def repeatList {α : Type} (l : List α) (n : Int) : List α :=
  (List.replicate n.toNat l).flatten

/-- Python `+`: int-like + int-like is an int (booleans count as 0 and 1),
numeric + numeric with a float involved is a float, strings and lists
concatenate; everything else raises `TypeError` (`Option.none`). -/
def pyAdd (v w : Value) : Option Value :=
  match asIntNum v, asIntNum w with
  | some a, some b => some (Value.int (a + b))
  | _, _ =>
    match numVal v, numVal w with
    | some x, some y => some (Value.float (x + y))
    | _, _ =>
      match v, w with
      | Value.str a, Value.str b => some (Value.str (a ++ b))
      | Value.list a, Value.list b => some (Value.list (a ++ b))
      | _, _ => Option.none

/-- Python `-` (binary): numeric only. -/
def pySub (v w : Value) : Option Value :=
  match asIntNum v, asIntNum w with
  | some a, some b => some (Value.int (a - b))
  | _, _ =>
    match numVal v, numVal w with
    | some x, some y => some (Value.float (x - y))
    | _, _ => Option.none

/-- Python `*`: numeric product, or sequence repetition when one operand
is a string or list and the other an int-like. -/
def pyMul (v w : Value) : Option Value :=
  match asIntNum v, asIntNum w with
  | some a, some b => some (Value.int (a * b))
  | _, _ =>
    match numVal v, numVal w with
    | some x, some y => some (Value.float (x * y))
    | _, _ =>
      match v, w with
      | Value.str a, w2 => (asIntNum w2).map (fun n => Value.str (repeatList a n))
      | v2, Value.str b => (asIntNum v2).map (fun n => Value.str (repeatList b n))
      | Value.list a, w2 => (asIntNum w2).map (fun n => Value.list (repeatList a n))
      | v2, Value.list b => (asIntNum v2).map (fun n => Value.list (repeatList b n))
      | _, _ => Option.none

/-- Python `/`: true division, always a float; division by zero raises
(`ZeroDivisionError`, modelled as `Option.none`, which the literal parser
turns into the raw-string fallback exactly as the bare `except:` does). -/
def pyDiv (v w : Value) : Option Value :=
  match numVal v, numVal w with
  | some x, some y => if y = 0 then Option.none else some (Value.float (x / y))
  | _, _ => Option.none

/-- Python unary `-`: int-like negates to an int (`-True` is `-1`), floats
to a float; everything else raises. -/
def pyNeg (v : Value) : Option Value :=
  match asIntNum v with
  | some n => some (Value.int (-n))
  | Option.none =>
    match v with
    | Value.float q => some (Value.float (-q))
    | _ => Option.none

/-- Python unary `+`: int-like becomes an int (`+True` is `1`), floats
stay floats; everything else raises. -/
def pyPos (v : Value) : Option Value :=
  match asIntNum v with
  | some n => some (Value.int n)
  | Option.none =>
    match v with
    | Value.float q => some (Value.float q)
    | _ => Option.none

/-- Tokens of the sandboxed-eval expression fragment. -/
inductive Tok where
  | lit (v : Value)
  | plus | minus | star | slash
  | lparen | rparen | lbrack | rbrack | comma

/-- Read an optional exponent suffix `e`/`E` with optional sign: returns
the exponent and the remaining characters, `0` when no suffix starts here,
and fails (`SyntaxError`) on a bare `e` without digits. -/
def readExpSuffix : List Char → Option (Int × List Char)
  | c :: r1 =>
    if c == 'e' || c == 'E' then
      match r1 with
      | '+' :: r2 =>
        match r2.takeWhile Char.isDigit with
        | [] => Option.none
        | ds => some ((digitsVal ds : Int), r2.dropWhile Char.isDigit)
      | '-' :: r2 =>
        match r2.takeWhile Char.isDigit with
        | [] => Option.none
        | ds => some (-(digitsVal ds : Int), r2.dropWhile Char.isDigit)
      | r2 =>
        match r2.takeWhile Char.isDigit with
        | [] => Option.none
        | ds => some ((digitsVal ds : Int), r2.dropWhile Char.isDigit)
    else some (0, c :: r1)
  | [] => some (0, [])

/-- Scale a rational by a signed power of ten (float exponents). -/
def scalePow10 (q : Rat) (e : Int) : Rat :=
  if 0 ≤ e then q * ((10 ^ e.toNat : Nat) : Rat)
  else q / ((10 ^ (-e).toNat : Nat) : Rat)

/-- One step of the tokenizer at character `c` with remaining characters
`rest`: `Option.none` is a tokenization failure (`SyntaxError`, or
`NameError` for a bare word that is not one of the constant literals,
since the builtins are empty); `some (t?, r)` consumed at least one
character, produced the optional token `t?` (no token for whitespace) and
continues at `r`.  It accepts whitespace, the word literals
`True`/`False`/`None` and the compile-time constant `__debug__`, unsigned
decimal int literals (with the Python 3 no-leading-zero rule), float
literals with optional fraction and exponent, simple quoted strings (no
backslash escapes: those are outside the modelled fragment), the
operators `+ - * /`, parentheses, brackets and commas. -/
def tokStep (c : Char) (rest : List Char) : Option (Option Tok × List Char) :=
  if isPySpace c then some (Option.none, rest)
  else if (c.isAlpha || c == '_') = true then
    match (c :: rest).takeWhile isPyWordChar, (c :: rest).dropWhile isPyWordChar with
    | w, r2 =>
      if w = "True".data then some (some (Tok.lit (Value.bool true)), r2)
      else if w = "False".data then some (some (Tok.lit (Value.bool false)), r2)
      else if w = "None".data then some (some (Tok.lit Value.none), r2)
      else if w = "__debug__".data then some (some (Tok.lit (Value.bool true)), r2)
      else Option.none
  else if c.isDigit || (c == '.' && (rest.headD ' ').isDigit) then
    match (c :: rest).takeWhile Char.isDigit, (c :: rest).dropWhile Char.isDigit with
    | ds, '.' :: r2 =>
      match r2.takeWhile Char.isDigit, r2.dropWhile Char.isDigit with
      | fs, r3 =>
        if ds.isEmpty && fs.isEmpty then Option.none
        else
          match readExpSuffix r3 with
          | some (ex, r4) =>
            some (some (Tok.lit (Value.float (scalePow10
              ((digitsVal ds : Rat) + (digitsVal fs : Rat) / ((10 ^ fs.length : Nat) : Rat))
              ex))), r4)
          | Option.none => Option.none
    | ds, r2 =>
      match r2 with
      | e :: _ =>
        if e == 'e' || e == 'E' then
          match readExpSuffix r2 with
          | some (ex, r4) =>
            some (some (Tok.lit (Value.float (scalePow10 (digitsVal ds : Rat) ex))), r4)
          | Option.none => Option.none
        else if decDigits ds then
          some (some (Tok.lit (Value.int (digitsVal ds : Int))), r2)
        else Option.none
      | [] =>
        if decDigits ds then
          some (some (Tok.lit (Value.int (digitsVal ds : Int))), r2)
        else Option.none
  else if c == '+' then some (some Tok.plus, rest)
  else if c == '-' then some (some Tok.minus, rest)
  else if c == '*' then some (some Tok.star, rest)
  else if c == '/' then some (some Tok.slash, rest)
  else if c == '(' then some (some Tok.lparen, rest)
  else if c == ')' then some (some Tok.rparen, rest)
  else if c == '[' then some (some Tok.lbrack, rest)
  else if c == ']' then some (some Tok.rbrack, rest)
  else if c == ',' then some (some Tok.comma, rest)
  else if isQuoteChar c then
    match rest.takeWhile (fun d => d != c && d != backslashChar),
          rest.dropWhile (fun d => d != c && d != backslashChar) with
    | content, d :: r2 =>
      if d == c then some (some (Tok.lit (Value.str content)), r2)
      else Option.none
    | _, [] => Option.none
  else Option.none

/-- The tokenizer loop, driven by fuel (every step consumes at least one
character, so the character count is enough fuel). -/
def tokenizeGo (fuel : Nat) (cs : List Char) : Option (List Tok) :=
  match fuel, cs with
  | _, [] => some []
  | 0, _ :: _ => Option.none
  | fuel + 1, c :: rest =>
    match tokStep c rest with
    | some (some t, r) => (tokenizeGo fuel r).map (t :: ·)
    | some (Option.none, r) => tokenizeGo fuel r
    | Option.none => Option.none

/-- Tokenize a literal text. -/
def tokenize (cs : List Char) : Option (List Tok) := tokenizeGo cs.length cs

/-- Grammar positions of the recursive-descent parser/evaluator: an
expression is a chain of terms under `+`/`-`, a term a chain of unaries
under `*`/`/`, a unary a signed atom, an atom a literal token, a
parenthesized expression, or a list display. -/
inductive PMode where
  | expr
  | addLoop
  | term
  | mulLoop
  | unary
  | atom
  | listLoop

/-- The recursive-descent parser/evaluator of the sandboxed-eval model,
evaluating Python operator semantics (`pyAdd`, `pySub`, `pyMul`, `pyDiv`,
`pyNeg`, `pyPos`) as it parses, driven by fuel.  `acc` carries the value
accumulated so far in the loop modes (and the collected elements, as a
`Value.list`, in `listLoop`); a raising operator (TypeError,
ZeroDivisionError) makes the parse fail, exactly like the bare `except:`
of the source.  List displays allow a trailing comma, as Python does. -/
def pparse : Nat → PMode → Value → List Tok → Option (Value × List Tok)
  | 0, _, _, _ => Option.none
  | fuel + 1, PMode.expr, _, ts =>
    match pparse fuel PMode.term Value.none ts with
    | some (v, r) => pparse fuel PMode.addLoop v r
    | Option.none => Option.none
  | fuel + 1, PMode.addLoop, acc, ts =>
    match ts with
    | Tok.plus :: r =>
      match pparse fuel PMode.term Value.none r with
      | some (v, r2) =>
        match pyAdd acc v with
        | some s => pparse fuel PMode.addLoop s r2
        | Option.none => Option.none
      | Option.none => Option.none
    | Tok.minus :: r =>
      match pparse fuel PMode.term Value.none r with
      | some (v, r2) =>
        match pySub acc v with
        | some s => pparse fuel PMode.addLoop s r2
        | Option.none => Option.none
      | Option.none => Option.none
    | _ => some (acc, ts)
  | fuel + 1, PMode.term, _, ts =>
    match pparse fuel PMode.unary Value.none ts with
    | some (v, r) => pparse fuel PMode.mulLoop v r
    | Option.none => Option.none
  | fuel + 1, PMode.mulLoop, acc, ts =>
    match ts with
    | Tok.star :: r =>
      match pparse fuel PMode.unary Value.none r with
      | some (v, r2) =>
        match pyMul acc v with
        | some s => pparse fuel PMode.mulLoop s r2
        | Option.none => Option.none
      | Option.none => Option.none
    | Tok.slash :: r =>
      match pparse fuel PMode.unary Value.none r with
      | some (v, r2) =>
        match pyDiv acc v with
        | some s => pparse fuel PMode.mulLoop s r2
        | Option.none => Option.none
      | Option.none => Option.none
    | _ => some (acc, ts)
  | fuel + 1, PMode.unary, _, ts =>
    match ts with
    | Tok.minus :: r =>
      match pparse fuel PMode.unary Value.none r with
      | some (v, r2) =>
        match pyNeg v with
        | some s => some (s, r2)
        | Option.none => Option.none
      | Option.none => Option.none
    | Tok.plus :: r =>
      match pparse fuel PMode.unary Value.none r with
      | some (v, r2) =>
        match pyPos v with
        | some s => some (s, r2)
        | Option.none => Option.none
      | Option.none => Option.none
    | _ => pparse fuel PMode.atom Value.none ts
  | fuel + 1, PMode.atom, _, ts =>
    match ts with
    | Tok.lit v :: r => some (v, r)
    | Tok.lparen :: r =>
      match pparse fuel PMode.expr Value.none r with
      | some (v, Tok.rparen :: r2) => some (v, r2)
      | _ => Option.none
    | Tok.lbrack :: (Tok.rbrack :: r) => some (Value.list [], r)
    | Tok.lbrack :: r => pparse fuel PMode.listLoop (Value.list []) r
    | _ => Option.none
  | fuel + 1, PMode.listLoop, acc, ts =>
    match acc with
    | Value.list elems =>
      match pparse fuel PMode.expr Value.none ts with
      | some (v, Tok.comma :: (Tok.rbrack :: r2)) => some (Value.list (elems ++ [v]), r2)
      | some (v, Tok.comma :: r2) => pparse fuel PMode.listLoop (Value.list (elems ++ [v])) r2
      | some (v, Tok.rbrack :: r2) => some (Value.list (elems ++ [v]), r2)
      | _ => Option.none
    | _ => Option.none

/-- Models `eval(value, \x7b"__builtins__": \x7b\x7d\x7d, \x7b\x7d)` from
`evaluate_comparison` on the modelled fragment: expressions over int,
float, string, `True`/`False`/`None`/`__debug__` and list literals,
combined with unary signs, `+ - * /` and parentheses, with Python result
types (ints stay ints, division is always float, `True` counts as 1,
sequences concatenate and repeat).  The whole text must parse as one
expression.  Texts outside the fragment — bare identifiers (`NameError`:
the builtins are empty), stray characters such as `=` (`SyntaxError`),
division by zero (`ZeroDivisionError`) — yield `Option.none`, which the
caller converts to the raw string; dict/tuple/set displays, `** // %`,
underscore digit separators and backslash escapes are outside the modelled
fragment and are treated as failing, and floats are exact rationals (no
rounding, infinities or NaN). -/
def pyEvalRestricted (s : List Char) : Option Value :=
  match tokenize s with
  | some ts =>
    match pparse (8 * (ts.length + 1)) PMode.expr Value.none ts with
    | some (v, []) => some v
    | _ => Option.none
  | Option.none => Option.none

/-- The `try: evaluated_value = eval(...) except: evaluated_value = value`
block of `evaluate_comparison`: a text on which eval raises degrades
silently to the raw text as a string. -/
def evalLiteral (s : List Char) : Value :=
  match pyEvalRestricted s with
  | some v => v
  | Option.none => Value.str s

/-- First value bound to `key` in an association list. -/
def assocLookup : List (List Char × Value) → List Char → Option Value
  | [], _ => Option.none
  | (k, v) :: rest, key => if k == key then some v else assocLookup rest key

mutual
/-- Python `==` on values as used by `evaluate_comparison`: numeric values
compare by numeric value across bool/int/float, strings by characters,
`None` only equals `None`, lists elementwise, dicts by key lookup
(faithful for unique keys, which Python dicts guarantee), and values of
incompatible types are unequal. -/
def pyEq : Value → Value → Bool
  | Value.list a, Value.list b => pyEqList a b
  | Value.dict a, Value.dict b => decide (a.length = b.length) && pyEqDict b a
  | v, w =>
    match numVal v, numVal w with
    | some x, some y => decide (x = y)
    | _, _ =>
      match v, w with
      | Value.none, Value.none => true
      | Value.str a, Value.str b => a == b
      | _, _ => false
termination_by structural v _ => v

/-- Elementwise list equality (Python list `==`: equal lengths and equal
elements). -/
def pyEqList : List Value → List Value → Bool
  | [], [] => true
  | x :: xs, y :: ys => pyEq x y && pyEqList xs ys
  | _, _ => false
termination_by structural l _ => l

/-- Every entry of the second association list equals the corresponding
lookup in the first (with the length check in `pyEq` this is Python dict
equality for unique keys). -/
def pyEqDict (b : List (List Char × Value)) : List (List Char × Value) → Bool
  | [] => true
  | (k, x) :: rest =>
    (match assocLookup b k with
     | some w => pyEq x w
     | Option.none => false) && pyEqDict b rest
termination_by structural l => l
end

mutual
/-- Python ordering (`>`, `<`, `>=`, `<=`) on values as used by
`evaluate_comparison`: a three-way comparison defined when both operands
are numeric, both strings, or both lists whose elementwise comparison is
defined; anything else raises `TypeError`, modelled as `Option.none` (in
particular `None`, absent fields, dicts, and mixed types). -/
def pyCmp : Value → Value → Option Ordering
  | Value.list a, Value.list b => pyCmpList a b
  | v, w =>
    match numVal v, numVal w with
    | some x, some y => some (ratCmp x y)
    | _, _ =>
      match v, w with
      | Value.str a, Value.str b => some (cmpCharList a b)
      | _, _ => Option.none
termination_by structural v _ => v

/-- Python list ordering: find the first index whose elements are not
equal (under Python `==`) and compare there, which may itself raise;
otherwise compare lengths. -/
def pyCmpList : List Value → List Value → Option Ordering
  | [], [] => some Ordering.eq
  | [], _ :: _ => some Ordering.lt
  | _ :: _, [] => some Ordering.gt
  | x :: xs, y :: ys => if pyEq x y then pyCmpList xs ys else pyCmp x y
termination_by structural l _ => l
end

/-- Split a dotted path into its segments. -/
def splitDots : List Char → List (List Char)
  | [] => [[]]
  | '.' :: rest => [] :: splitDots rest
  | c :: rest =>
    match splitDots rest with
    | seg :: segs => (c :: seg) :: segs
    | [] => [[c]]

/-- Traversal underlying `pydash.get`: descend segment by segment, mappings
by key and sequences by decimal index, returning the absent sentinel
(Python `None`) as soon as a segment cannot be resolved. -/
def deepGet : Value → List (List Char) → Value
  | v, [] => v
  | Value.dict kvs, seg :: rest =>
    match assocLookup kvs seg with
    | some v => deepGet v rest
    | Option.none => Value.none
  | Value.list xs, seg :: rest =>
    if !seg.isEmpty && seg.all Char.isDigit then
      match xs.get? (digitsVal seg) with
      | some v => deepGet v rest
      | Option.none => Value.none
    else Value.none
  | _, _ :: _ => Value.none

/-- Models `pydash.get(o, field)` with the default `None`: resolve the
dotted `field` path against `o`, yielding `Value.none` when any step is
absent. -/
def pydashGet (o : Value) (field : List Char) : Value :=
  deepGet o (splitDots field)

/-- The ordered alternation `(==|!=|>|<|>=|<=)` of the clause regex.
Python regex alternation is leftmost-first, not longest-first, so `>` is
tried before `>=` and `<` before `<=`. -/
def opTable : List (List Char × CompOp) :=
  [("==".data, CompOp.eq), ("!=".data, CompOp.ne), (">".data, CompOp.gt),
   ("<".data, CompOp.lt), (">=".data, CompOp.ge), ("<=".data, CompOp.le)]

/-- The `\s*(.+)` tail of the clause regex: skip whitespace greedily, then
take the nonempty run of characters up to the next newline (`.` does not
match a newline). -/
def takeValue (rest : List Char) : Option (List Char) :=
  match (rest.dropWhile isPySpace).takeWhile (fun c => c != Char.ofNat 10) with
  | [] => Option.none
  | v => some v

/-- Try the operator alternatives in regex order at the current position:
an alternative is committed only if the remainder of the pattern also
matches (regex backtracking moves to the next alternative otherwise). -/
def tryOps (field : List Char) (s : List Char) :
    List (List Char × CompOp) → Option (List Char × CompOp × List Char)
  | [] => Option.none
  | (tok, op) :: more =>
    if startsWith s tok then
      match takeValue (s.drop tok.length) with
      | some v => some (field, op, v)
      | Option.none => tryOps field s more
    else tryOps field s more

/-- Models `re.match` of the clause pattern
`\$\.([\w\.]+)\s*(==|!=|>|<|>=|<=)\s*(.+)` against the (already stripped)
clause text: literal `$.`, then the greedy field group, greedy whitespace,
the operator alternation, and the value tail.  The greedy field and
whitespace groups cannot backtrack usefully because no operator token
begins with a word character, a dot, or whitespace, so maximal munch is
exact. -/
def matchClause (t : List Char) : Option (List Char × CompOp × List Char) :=
  match t with
  | '$' :: '.' :: rest =>
    match rest.takeWhile isFieldChar with
    | [] => Option.none
    | field =>
      tryOps field ((rest.dropWhile isFieldChar).dropWhile isPySpace) opTable
  | _ => Option.none

/-- The `evaluate_comparison` inner function of `Expr.test`: strip the
clause, match it against the clause regex (raising
`EvalErr.malformedClause` with the raw clause text on failure), evaluate
the literal text, resolve the field with `pydash.get`, and apply the
comparison operator; ordering operators raise `EvalErr.uncomparable` on
incompatible operands. -/
def evaluate_comparison (o : Value) (expr : List Char) : Except EvalErr Bool :=
  match matchClause (pyStrip expr) with
  | Option.none => Except.error (EvalErr.malformedClause expr)
  | some (field, op, vtext) =>
    match op with
    | CompOp.eq => Except.ok (pyEq (pydashGet o field) (evalLiteral vtext))
    | CompOp.ne => Except.ok (!pyEq (pydashGet o field) (evalLiteral vtext))
    | CompOp.gt =>
      match pyCmp (pydashGet o field) (evalLiteral vtext) with
      | some ord => Except.ok (ord == Ordering.gt)
      | Option.none => Except.error EvalErr.uncomparable
    | CompOp.lt =>
      match pyCmp (pydashGet o field) (evalLiteral vtext) with
      | some ord => Except.ok (ord == Ordering.lt)
      | Option.none => Except.error EvalErr.uncomparable
    | CompOp.ge =>
      match pyCmp (pydashGet o field) (evalLiteral vtext) with
      | some ord => Except.ok (ord == Ordering.gt || ord == Ordering.eq)
      | Option.none => Except.error EvalErr.uncomparable
    | CompOp.le =>
      match pyCmp (pydashGet o field) (evalLiteral vtext) with
      | some ord => Except.ok (ord == Ordering.lt || ord == Ordering.eq)
      | Option.none => Except.error EvalErr.uncomparable

/-- State of the character scan of `split_on_logical_ops`: the clause
substrings and connectors collected so far, the start position of the
current clause, and the quote-toggle flag. -/
structure SplitSt where
  parts : List (List Char)
  ops : List LogOp
  lastPos : Nat
  inQuotes : Bool

/-- The `if char in ['"', "'"]: in_quotes = not in_quotes` update of the
scan. -/
def toggleQuote (c : Char) (q : Bool) : Bool := if isQuoteChar c then !q else q

/-- One iteration of the scan of `split_on_logical_ops` at position `i`
with character `c = expr[i]`: toggle the in-quote flag on a quote
character; outside quotes, when the next five characters uppercase to
`" AND "` (else the next four to `" OR "`, both only checked under the
`i + 5 <= len(expr)` guard of the source), close the current clause and
record the connector. -/
def splitStep (expr : List Char) (i : Nat) (c : Char) (st : SplitSt) : SplitSt :=
  if toggleQuote c st.inQuotes = false ∧ i + 5 ≤ expr.length then
    if (slice expr i (i + 5)).map Char.toUpper = " AND ".data then
      ⟨st.parts ++ [slice expr st.lastPos i], st.ops ++ [LogOp.and], i + 5,
        toggleQuote c st.inQuotes⟩
    else if (slice expr i (i + 4)).map Char.toUpper = " OR ".data then
      ⟨st.parts ++ [slice expr st.lastPos i], st.ops ++ [LogOp.or], i + 4,
        toggleQuote c st.inQuotes⟩
    else ⟨st.parts, st.ops, st.lastPos, toggleQuote c st.inQuotes⟩
  else ⟨st.parts, st.ops, st.lastPos, toggleQuote c st.inQuotes⟩

/-- The scan loop `for i, char in enumerate(expr)`, driven by the list of
remaining characters (`remaining = expr.drop i` at every call). -/
def splitGo (expr : List Char) : List Char → Nat → SplitSt → SplitSt
  | [], _, st => st
  | c :: rest, i, st => splitGo expr rest (i + 1) (splitStep expr i c st)

/-- The final `parts.append(expr[last_pos:])` of the splitter. -/
def splitFinish (expr : List Char) (st : SplitSt) :
    List (List Char) × List LogOp :=
  (st.parts ++ [slice expr st.lastPos expr.length], st.ops)

/-- The `split_on_logical_ops` inner function of `Expr.test`: scan the
expression, splitting (outside quotes) at every ` AND ` / ` OR ` keyword,
then append the remaining tail as the final clause. -/
def split_on_logical_ops (expr : List Char) : List (List Char) × List LogOp :=
  splitFinish expr (splitGo expr expr 0 ⟨[], [], 0, false⟩)

/-- Is the connector ahead of the next loop iteration an `OR`?  This is the
`i + 1 < len(operators) and operators[i + 1] == 'OR'` test of the source,
phrased on the remaining connector/clause pairs. -/
def nextIsOr : List (LogOp × List Char) → Bool
  | (LogOp.or, _) :: _ => true
  | _ => false

/-- The connector loop of `Expr.test`, folded over the remaining
(connector, clause) pairs (the source indexes `operators[i]` and
`parts[i+1]`; the splitter always returns exactly one more part than
connectors — a proved invariant in this development — so the zipped pairs
are exactly these index pairs).
For `AND`, `result = result and evaluate_comparison(...)` short-circuits
on a false accumulator, and `if not result: break` stops the whole fold.
For `OR`, `result = result or evaluate_comparison(...)` short-circuits on
a true accumulator; the trailing `if result and (...): continue` is kept
verbatim as an if-then-else whose branches both continue the fold. -/
def foldPairs (o : Value) (result : Bool) :
    List (LogOp × List Char) → Except EvalErr Bool
  | [] => Except.ok result
  | (LogOp.and, c) :: rest =>
    match (if result then evaluate_comparison o c else Except.ok false) with
    | Except.error e => Except.error e
    | Except.ok r => if r = false then Except.ok false else foldPairs o r rest
  | (LogOp.or, c) :: rest =>
    match (if result then Except.ok true else evaluate_comparison o c) with
    | Except.error e => Except.error e
    | Except.ok r =>
      if r && nextIsOr rest then foldPairs o r rest else foldPairs o r rest

/-- The `Expr` class: construction (`__init__`) just stores the raw
expression text and can never fail; clauses are parsed only during
evaluation. -/
structure Expr where
  args : List Char

/-- The `Expr.test` method: if neither ` AND ` nor ` OR ` occurs in the
uppercased expression, evaluate the whole text as a single comparison;
otherwise split into clauses and connectors, evaluate the first clause,
and fold the connector loop over the remaining pairs. -/
def Expr.test (self : Expr) (o : Value) : Except EvalErr Bool :=
  if containsSub " AND ".data (self.args.map Char.toUpper) = false
      ∧ containsSub " OR ".data (self.args.map Char.toUpper) = false then
    evaluate_comparison o self.args
  else
    match split_on_logical_ops self.args with
    | (parts, operators) =>
      match evaluate_comparison o (parts.headD []) with
      | Except.error e => Except.error e
      | Except.ok r0 => foldPairs o r0 (operators.zip (parts.drop 1))

/-! ### Concrete inputs -/

/-- The extended test object of the notebook:
`{"foo": "some value", "nested": {"field": 123}, "active": True,
"count": 10, "role": "user"}` (the `permissions` entry is irrelevant to
the clauses below and omitted). -/
def objExt : Value := Value.dict
  [("foo".data, Value.str "some value".data),
   ("nested".data, Value.dict [("field".data, Value.int 123)]),
   ("active".data, Value.bool true),
   ("count".data, Value.int 10),
   ("role".data, Value.str "user".data)]

/-- The three-clause expression of the notebook multi-operator test:
A = `$.foo == "some value"` (true on `objExt`), B = `$.role == "admin"`
(false), C = `$.count > 5` (true). -/
def exprABC : List Char :=
  "$.foo == \"some value\" AND $.role == \"admin\" OR $.count > 5".data

/-! ### C1 -/

/-- Claim C1 (code_bug evidence): on `A AND B OR C` with A true, B false
and C true, the implementation returns `false`, not the `true` required by
left-to-right `(A AND B) OR C` evaluation (and by the notebook comment on
this very test): after `result = result and evaluate_comparison(B)` makes
the accumulator false, `if not result: break` stops the whole fold, so
`OR C` is never applied. -/
theorem c1_and_break_skips_or : Expr.test ⟨exprABC⟩ objExt = Except.ok false := by
  rfl

/-! ### C2 -/

/-- Claim C2 (code_bug evidence): operator matching is leftmost-first, not
longest-first.  For the clause `$.count >= 5` the regex alternation
`(==|!=|>|<|>=|<=)` commits to `>` and the literal text becomes `= 5`, so
against `{"count": 10}` evaluation raises Uncomparable (int versus string)
instead of recognizing `>=` and returning `true`. -/
theorem c2_ge_parses_as_gt :
    matchClause (pyStrip "$.count >= 5".data)
        = some ("count".data, CompOp.gt, "= 5".data)
      ∧ Expr.test ⟨"$.count >= 5".data⟩ objExt = Except.error EvalErr.uncomparable := by
  exact ⟨rfl, rfl⟩

/-! ### C3 -/

/-- Claim C4 counterexample: the field value `True` (a Boolean) and the
literal `0` (an Integer) are not both numbers in the data model of the
claim, yet `$.active > 0` against `{"active": True}` succeeds with `true`
instead of failing with Uncomparable, because Python orders booleans as
the integers 0 and 1. -/
theorem c4_bool_orders_with_int :
    evaluate_comparison objExt "$.active > 0".data = Except.ok true := by
  rfl

/-! ### C5 -/

/-- Claim C5 counterexample: the field value `True` (a Boolean) and the
literal `1` (an Integer) differ in type, yet Eq returns `true`, not the
`false` the claim requires, because Python equates `True` with `1`. -/
theorem c5_bool_eq_int :
    evaluate_comparison objExt "$.active == 1".data = Except.ok true := by
  rfl

/-! ### C6 -/

/-- Claim C6 counterexample: the token `null` is not mapped to the Null
literal: the sandboxed eval raises NameError on it (empty builtins), so it
degrades to the String `"null"`. -/
theorem c6_null_is_not_nullLiteral :
    evalLiteral "null".data = Value.str "null".data
      ∧ evalLiteral "null".data ≠ Value.none := by
  refine ⟨rfl, ?_⟩
  intro h
  exact Value.noConfusion h

/-- Claim C6 amended: only the token `None` is mapped to the Null literal;
`null` degrades to the String `"null"`, so `$.x == null` compares the
field against the string `"null"` (here: `true` exactly because the field
holds that string). -/
theorem c6_only_None_is_null :
    evalLiteral "None".data = Value.none
      ∧ evalLiteral "null".data = Value.str "null".data
      ∧ evaluate_comparison (Value.dict [("x".data, Value.str "null".data)])
          "$.x == null".data = Except.ok true := by
  exact ⟨rfl, rfl, rfl⟩

/-! ### C8: splitter invariants -/

/-- Each scan step appends to the clause list and the connector list
together (or to neither), so their lengths stay equal, and while no
connector has been recorded the clause list is empty and the clause start
position is still 0. -/
theorem splitStep_inv (expr : List Char) (i : Nat) (c : Char) (st : SplitSt)
    (h1 : st.parts.length = st.ops.length)
    (h2 : st.ops = [] → st.parts = [] ∧ st.lastPos = 0) :
    (splitStep expr i c st).parts.length = (splitStep expr i c st).ops.length
      ∧ ((splitStep expr i c st).ops = []
          → (splitStep expr i c st).parts = [] ∧ (splitStep expr i c st).lastPos = 0) := by
  unfold splitStep
  split
  · split
    · exact ⟨by simp [h1], fun h => absurd h (by simp)⟩
    · split
      · exact ⟨by simp [h1], fun h => absurd h (by simp)⟩
      · exact ⟨h1, h2⟩
  · exact ⟨h1, h2⟩

/-- The scan loop preserves the `splitStep_inv` invariant. -/
theorem splitGo_inv (expr : List Char) :
    ∀ (rem : List Char) (i : Nat) (st : SplitSt),
      st.parts.length = st.ops.length →
      (st.ops = [] → st.parts = [] ∧ st.lastPos = 0) →
      (splitGo expr rem i st).parts.length = (splitGo expr rem i st).ops.length
        ∧ ((splitGo expr rem i st).ops = []
            → (splitGo expr rem i st).parts = []
              ∧ (splitGo expr rem i st).lastPos = 0) := by
  intro rem
  induction rem with
  | nil => intro i st h1 h2; exact ⟨h1, h2⟩
  | cons c rest ih =>
    intro i st h1 h2
    have hs := splitStep_inv expr i c st h1 h2
    simp only [splitGo]
    exact ih (i + 1) (splitStep expr i c st) hs.1 hs.2

/-- Claim C8: for every input string the splitter returns exactly one more
clause substring than connectors (hence at least one clause), and when it
records no connector the single clause is the whole input string. -/
theorem c8_split_invariant (expr : List Char) :
    (split_on_logical_ops expr).1.length = (split_on_logical_ops expr).2.length + 1
      ∧ ((split_on_logical_ops expr).2 = []
          → (split_on_logical_ops expr).1 = [expr]) := by
  have h := splitGo_inv expr expr 0 ⟨[], [], 0, false⟩ rfl (fun _ => ⟨rfl, rfl⟩)
  unfold split_on_logical_ops splitFinish
  constructor
  · simp [h.1]
  · intro hops
    have h3 := h.2 hops
    simp only [slice] at *
    simp [h3.1, h3.2, hops]

/-- Witness for C8 at the connector-free input `$.x == 1`. -/
theorem c8_split_invariant_witness :
    (split_on_logical_ops "$.x == 1".data).1.length
        = (split_on_logical_ops "$.x == 1".data).2.length + 1
      ∧ (split_on_logical_ops "$.x == 1".data).1 = ["$.x == 1".data] :=
  ⟨(c8_split_invariant "$.x == 1".data).1, (c8_split_invariant "$.x == 1".data).2 rfl⟩

/-! ### C7: quoted connectors are not split -/

/-- The substring ` AND ` (case-insensitively) occurs at position `i`. -/
def andOccursAt (expr : List Char) (i : Nat) : Prop :=
  i + 5 ≤ expr.length ∧ (slice expr i (i + 5)).map Char.toUpper = " AND ".data

/-- The substring ` OR ` (case-insensitively) occurs at position `i`. -/
def orOccursAt (expr : List Char) (i : Nat) : Prop :=
  i + 4 ≤ expr.length ∧ (slice expr i (i + 4)).map Char.toUpper = " OR ".data

/-- Parity of the quote characters in `l`: `true` after an opening quote
that has not been closed again. -/
def quoteParity (l : List Char) : Bool :=
  decide ((l.filter isQuoteChar).length % 2 = 1)

/-- Position `i` lies between an opening and a closing quote character:
the number of quote characters strictly before it is odd. -/
def insideQuotes (expr : List Char) (i : Nat) : Prop :=
  quoteParity (expr.take i) = true

instance (expr : List Char) (i : Nat) : Decidable (andOccursAt expr i) :=
  inferInstanceAs (Decidable
    (i + 5 ≤ expr.length ∧ (slice expr i (i + 5)).map Char.toUpper = " AND ".data))

instance (expr : List Char) (i : Nat) : Decidable (orOccursAt expr i) :=
  inferInstanceAs (Decidable
    (i + 4 ≤ expr.length ∧ (slice expr i (i + 4)).map Char.toUpper = " OR ".data))

instance (expr : List Char) (i : Nat) : Decidable (insideQuotes expr i) :=
  inferInstanceAs (Decidable (quoteParity (expr.take i) = true))

theorem decide_parity_flip (n : Nat) :
    decide ((n + 1) % 2 = 1) = !decide (n % 2 = 1) := by
  rcases Nat.mod_two_eq_zero_or_one n with h | h
  · have h1 : (n + 1) % 2 = 1 := by omega
    simp [h, h1]
  · have h1 : (n + 1) % 2 = 0 := by omega
    simp [h, h1]

theorem quoteParity_append_char (t : List Char) (c : Char) :
    quoteParity (t ++ [c])
      = (if isQuoteChar c then !quoteParity t else quoteParity t) := by
  by_cases h : isQuoteChar c
  · simp [quoteParity, List.filter_append, h, decide_parity_flip]
  · simp [quoteParity, List.filter_append, h]

/-- A character whose uppercase form is a space is not a quote
character. -/
theorem toUpper_space_not_quote (c : Char) (h : Char.toUpper c = ' ') :
    isQuoteChar c = false := by
  by_cases h1 : c = '"'
  · subst h1; exact absurd h (by decide)
  · by_cases h2 : c = quoteChar2
    · subst h2; exact absurd h (by decide)
    · simp [isQuoteChar, h1, h2]

theorem take_succ_of_drop {expr rest : List Char} {i : Nat} {c : Char}
    (hdrop : expr.drop i = c :: rest) :
    expr.take (i + 1) = expr.take i ++ [c] := by
  have hlt : i < expr.length := by
    have hlen := congrArg List.length hdrop
    simp [List.length_drop] at hlen
    omega
  have hsplit := (List.take_append_drop i expr).symm
  have hlentake : (expr.take i).length = i := List.length_take_of_le (le_of_lt hlt)
  conv_lhs => rw [hsplit, hdrop]
  rw [show i + 1 = (expr.take i).length + 1 by rw [hlentake]]
  rw [List.take_append_eq_append_take]
  simp

/-- Under the hypothesis that every connector occurrence lies inside
quotes, a scan step whose in-quote flag tracks the quote parity records
nothing and just advances the parity. -/
theorem splitStep_no_match (expr : List Char)
    (H : ∀ i, i < expr.length
          → andOccursAt expr i ∨ orOccursAt expr i → insideQuotes expr i)
    (i : Nat) (c : Char) (rest : List Char) (st : SplitSt)
    (hdrop : expr.drop i = c :: rest)
    (hq : st.inQuotes = quoteParity (expr.take i)) :
    splitStep expr i c st
      = ⟨st.parts, st.ops, st.lastPos, quoteParity (expr.take (i + 1))⟩ := by
  have hlt : i < expr.length := by
    have hlen := congrArg List.length hdrop
    simp [List.length_drop] at hlen
    omega
  have htake : expr.take (i + 1) = expr.take i ++ [c] := take_succ_of_drop hdrop
  have hpar : quoteParity (expr.take (i + 1))
      = toggleQuote c (quoteParity (expr.take i)) := by
    rw [htake, quoteParity_append_char]
    rfl
  unfold splitStep
  by_cases houter : (toggleQuote c st.inQuotes = false ∧ i + 5 ≤ expr.length)
  · obtain ⟨hfq, hlen5⟩ := houter
    rw [if_pos ⟨hfq, hlen5⟩]
    by_cases hand : (slice expr i (i + 5)).map Char.toUpper = " AND ".data
    · exfalso
      have hin : quoteParity (expr.take i) = true :=
        H i hlt (Or.inl ⟨hlen5, hand⟩)
      have hsl : slice expr i (i + 5) = c :: rest.take 4 := by
        simp [slice, hdrop]
      rw [hsl] at hand
      simp only [List.map_cons] at hand
      have hc : Char.toUpper c = ' ' := ((List.cons.injEq _ _ _ _).mp hand).1
      have hnq : isQuoteChar c = false := toUpper_space_not_quote c hc
      have htog : toggleQuote c st.inQuotes = st.inQuotes := by
        simp [toggleQuote, hnq]
      rw [htog, hq, hin] at hfq
      exact Bool.noConfusion hfq
    · rw [if_neg hand]
      by_cases hor : (slice expr i (i + 4)).map Char.toUpper = " OR ".data
      · exfalso
        have hin : quoteParity (expr.take i) = true :=
          H i hlt (Or.inr ⟨by omega, hor⟩)
        have hsl : slice expr i (i + 4) = c :: rest.take 3 := by
          simp [slice, hdrop]
        rw [hsl] at hor
        simp only [List.map_cons] at hor
        have hc : Char.toUpper c = ' ' := ((List.cons.injEq _ _ _ _).mp hor).1
        have hnq : isQuoteChar c = false := toUpper_space_not_quote c hc
        have htog : toggleQuote c st.inQuotes = st.inQuotes := by
          simp [toggleQuote, hnq]
        rw [htog, hq, hin] at hfq
        exact Bool.noConfusion hfq
      · rw [if_neg hor, hq, hpar]
  · rw [if_neg houter, hq, hpar]

/-- With every connector occurrence inside quotes the scan never records
anything. -/
theorem splitGo_c7 (expr : List Char)
    (H : ∀ i, i < expr.length
          → andOccursAt expr i ∨ orOccursAt expr i → insideQuotes expr i) :
    ∀ (rem : List Char) (i : Nat) (st : SplitSt),
      expr.drop i = rem →
      st.parts = [] → st.ops = [] → st.lastPos = 0 →
      st.inQuotes = quoteParity (expr.take i) →
      (splitGo expr rem i st).parts = []
        ∧ (splitGo expr rem i st).ops = []
        ∧ (splitGo expr rem i st).lastPos = 0 := by
  intro rem
  induction rem with
  | nil => intro i st _ h1 h2 h3 _; exact ⟨h1, h2, h3⟩
  | cons c rest ih =>
    intro i st hdrop h1 h2 h3 h4
    have hstep := splitStep_no_match expr H i c rest st hdrop h4
    have hdrop1 : expr.drop (i + 1) = rest := by
      have h5 : expr.drop (i + 1) = (expr.drop i).drop 1 := by
        rw [List.drop_drop]
      rw [h5, hdrop]
      rfl
    simp only [splitGo]
    rw [hstep]
    exact ih (i + 1) ⟨st.parts, st.ops, st.lastPos, quoteParity (expr.take (i + 1))⟩
      hdrop1 h1 h2 h3 rfl

/-- Claim C7: for every expression string in which every (case-insensitive)
occurrence of ` AND ` or ` OR ` lies between an opening and a closing
quote character, the splitter records no connector at all: it returns the
whole string as a single clause with an empty connector list. -/
theorem c7_quoted_ops_not_split (expr : List Char)
    (H : ∀ i, i < expr.length
          → andOccursAt expr i ∨ orOccursAt expr i → insideQuotes expr i) :
    split_on_logical_ops expr = ([expr], []) := by
  have h := splitGo_c7 expr H expr 0 ⟨[], [], 0, false⟩ rfl rfl rfl rfl rfl
  unfold split_on_logical_ops splitFinish
  obtain ⟨h1, h2, h3⟩ := h
  simp [h1, h2, h3, slice]

/-- Witness for C7: `$.x == "a AND b"` contains ` AND ` only inside its
quotes and is returned as one clause with no connectors. -/
theorem c7_quoted_ops_not_split_witness :
    (∀ i, i < ("$.x == \"a AND b\"".data).length
        → andOccursAt "$.x == \"a AND b\"".data i
            ∨ orOccursAt "$.x == \"a AND b\"".data i
        → insideQuotes "$.x == \"a AND b\"".data i)
      ∧ split_on_logical_ops "$.x == \"a AND b\"".data
          = (["$.x == \"a AND b\"".data], []) :=
  ⟨by decide, c7_quoted_ops_not_split "$.x == \"a AND b\"".data (by decide)⟩

/-! ### C10: the OR-branch `continue` has no effect -/

/-- Variant of the connector loop following the claim: the `OR` case is
simply `result = result or evaluate_comparison(...)` with the left
short-circuit, and no trailing conditional `continue`; the `AND` case is
unchanged. -/
def foldPairsVar (o : Value) (result : Bool) :
    List (LogOp × List Char) → Except EvalErr Bool
  | [] => Except.ok result
  | (LogOp.and, c) :: rest =>
    match (if result then evaluate_comparison o c else Except.ok false) with
    | Except.error e => Except.error e
    | Except.ok r => if r = false then Except.ok false else foldPairsVar o r rest
  | (LogOp.or, c) :: rest =>
    match (if result then Except.ok true else evaluate_comparison o c) with
    | Except.error e => Except.error e
    | Except.ok r => foldPairsVar o r rest

/-- `Expr.test` with the variant connector loop. -/
def testVar (args : List Char) (o : Value) : Except EvalErr Bool :=
  if containsSub " AND ".data (args.map Char.toUpper) = false
      ∧ containsSub " OR ".data (args.map Char.toUpper) = false then
    evaluate_comparison o args
  else
    match split_on_logical_ops args with
    | (parts, operators) =>
      match evaluate_comparison o (parts.headD []) with
      | Except.error e => Except.error e
      | Except.ok r0 => foldPairsVar o r0 (operators.zip (parts.drop 1))

/-- The two connector loops agree on every input: the conditional
`continue` guards an if-then-else whose branches are identical. -/
theorem foldPairs_eq_var (o : Value) :
    ∀ (l : List (LogOp × List Char)) (r : Bool),
      foldPairs o r l = foldPairsVar o r l := by
  intro l
  induction l with
  | nil => intro r; rfl
  | cons hd rest ih =>
    intro r
    obtain ⟨op, c⟩ := hd
    cases op with
    | and =>
      simp only [foldPairs, foldPairsVar]
      cases (if r then evaluate_comparison o c else Except.ok false) with
      | error e => rfl
      | ok rv =>
        by_cases hrv : rv = false
        · simp [hrv]
        · simp [hrv, ih]
    | or =>
      simp only [foldPairs, foldPairsVar]
      cases (if r then Except.ok true else evaluate_comparison o c) with
      | error e => rfl
      | ok rv =>
        simp only [ite_self]
        exact ih rv

/-- Claim C10: the conditional skip in the Or branch of the evaluation
fold (`continue` only when the accumulated result is true and the next
connector is Or) never affects the outcome: `Expr.test` returns the same
result, error cases included, as the variant whose Or case is simply
`result = result or evaluate_comparison(...)`. -/
theorem c10_or_continue_noop (args : List Char) (o : Value) :
    Expr.test ⟨args⟩ o = testVar args o := by
  unfold Expr.test testVar
  by_cases hc : (containsSub " AND ".data (args.map Char.toUpper) = false
      ∧ containsSub " OR ".data (args.map Char.toUpper) = false)
  · rw [if_pos hc, if_pos hc]
  · rw [if_neg hc, if_neg hc]
    cases hsplit : split_on_logical_ops args with
    | mk parts operators =>
      dsimp only
      cases evaluate_comparison o (parts.headD []) with
      | error e => rfl
      | ok r0 => exact foldPairs_eq_var o (operators.zip (parts.drop 1)) r0

/-! ### C9: construction never fails; malformed clauses surface lazily -/

/-- The connector loop instrumented to record, in invocation order, the
clause substrings actually passed to `evaluate_comparison` (the clauses
"reached" by evaluation).  The result component agrees with `foldPairs`;
the loop stops at the first raised error, exactly as a Python exception
propagates. -/
def foldPairsI (o : Value) (result : Bool) :
    List (LogOp × List Char) → Except EvalErr Bool × List (List Char)
  | [] => (Except.ok result, [])
  | (LogOp.and, c) :: rest =>
    if result then
      match evaluate_comparison o c with
      | Except.error e => (Except.error e, [c])
      | Except.ok r =>
        if r = false then (Except.ok false, [c])
        else ((foldPairsI o r rest).1, c :: (foldPairsI o r rest).2)
    else (Except.ok false, [])
  | (LogOp.or, c) :: rest =>
    if result then
      ((foldPairsI o true rest).1, (foldPairsI o true rest).2)
    else
      match evaluate_comparison o c with
      | Except.error e => (Except.error e, [c])
      | Except.ok r => ((foldPairsI o r rest).1, c :: (foldPairsI o r rest).2)

/-- `Expr.test` instrumented to record the reached clause substrings: the
single-clause branch reaches the whole expression text, the split branch
reaches the first clause and then whatever the connector loop reaches. -/
def testInstr (args : List Char) (o : Value) :
    Except EvalErr Bool × List (List Char) :=
  if containsSub " AND ".data (args.map Char.toUpper) = false
      ∧ containsSub " OR ".data (args.map Char.toUpper) = false then
    (evaluate_comparison o args, [args])
  else
    match split_on_logical_ops args with
    | (parts, operators) =>
      match evaluate_comparison o (parts.headD []) with
      | Except.error e => (Except.error e, [parts.headD []])
      | Except.ok r0 =>
        ((foldPairsI o r0 (operators.zip (parts.drop 1))).1,
          parts.headD [] :: (foldPairsI o r0 (operators.zip (parts.drop 1))).2)

/-- `evaluate_comparison` raises MalformedClause, carrying exactly its raw
clause text, precisely when the stripped clause does not match the clause
regex. -/
theorem evaluate_malformed_iff (o : Value) (c t : List Char) :
    evaluate_comparison o c = Except.error (EvalErr.malformedClause t)
      ↔ (t = c ∧ matchClause (pyStrip c) = Option.none) := by
  unfold evaluate_comparison
  cases hm : matchClause (pyStrip c) with
  | none => simp [eq_comm]
  | some x =>
    obtain ⟨f, op, vt⟩ := x
    cases op <;> simp [hm] <;>
      (intro h; split at h <;> simp_all)

/-- A clause on which `evaluate_comparison` succeeds does match the clause
regex. -/
theorem evaluate_ok_matches (o : Value) (c : List Char) (r : Bool)
    (h : evaluate_comparison o c = Except.ok r) :
    ¬matchClause (pyStrip c) = Option.none := by
  intro hm
  unfold evaluate_comparison at h
  rw [hm] at h
  exact Except.noConfusion h

/-- Raised errors are in bijection with reached failing clauses, for a
single invoked clause. -/
theorem error_singleton_iff (o : Value) (c t : List Char) (e : EvalErr)
    (he : evaluate_comparison o c = Except.error e) :
    ((Except.error e : Except EvalErr Bool)
        = Except.error (EvalErr.malformedClause t))
      ↔ (t ∈ [c] ∧ matchClause (pyStrip t) = Option.none) := by
  have hev := evaluate_malformed_iff o c t
  rw [he] at hev
  rw [hev]
  constructor
  · rintro ⟨h1, h2⟩
    subst h1
    exact ⟨by simp, h2⟩
  · rintro ⟨hmem, hmc⟩
    have ht : t = c := by simpa using hmem
    subst ht
    exact ⟨rfl, hmc⟩

/-- The connector loop raises MalformedClause for `t` exactly when it
reaches `t` as a clause and `t` fails the clause regex. -/
theorem foldPairs_malformed_iff (o : Value) (t : List Char) :
    ∀ (l : List (LogOp × List Char)) (r : Bool),
      foldPairs o r l = Except.error (EvalErr.malformedClause t)
        ↔ (t ∈ (foldPairsI o r l).2
            ∧ matchClause (pyStrip t) = Option.none) := by
  intro l
  induction l with
  | nil => intro r; simp [foldPairs, foldPairsI]
  | cons hd rest ih =>
    intro r
    obtain ⟨op, c⟩ := hd
    cases op with
    | and =>
      cases r with
      | false => simp [foldPairs, foldPairsI]
      | true =>
        simp only [foldPairs, foldPairsI, if_true]
        cases he : evaluate_comparison o c with
        | error e =>
          exact error_singleton_iff o c t e he
        | ok rv =>
          cases rv with
          | false =>
            simp only [if_pos rfl]
            constructor
            · intro h
              exact absurd h (by simp)
            · rintro ⟨hmem, hmc⟩
              have ht : t = c := by simpa using hmem
              subst ht
              exact absurd hmc (evaluate_ok_matches o t false he)
          | true =>
            simp only [if_neg (by simp : ¬(true = false))]
            rw [ih true]
            constructor
            · rintro ⟨h1, h2⟩
              exact ⟨List.mem_cons_of_mem c h1, h2⟩
            · rintro ⟨hmem, hmc⟩
              rcases List.mem_cons.mp hmem with ht | ht
              · subst ht
                exact absurd hmc (evaluate_ok_matches o t true he)
              · exact ⟨ht, hmc⟩
    | or =>
      cases r with
      | true =>
        simp only [foldPairs, foldPairsI, if_true, Bool.true_and, ite_self]
        exact ih true
      | false =>
        simp only [foldPairs, foldPairsI, if_neg (by simp : ¬(false = true))]
        cases he : evaluate_comparison o c with
        | error e =>
          exact error_singleton_iff o c t e he
        | ok rv =>
          simp only [ite_self]
          rw [ih rv]
          constructor
          · rintro ⟨h1, h2⟩
            exact ⟨List.mem_cons_of_mem c h1, h2⟩
          · rintro ⟨hmem, hmc⟩
            rcases List.mem_cons.mp hmem with ht | ht
            · subst ht
              exact absurd hmc (evaluate_ok_matches o t rv he)
            · exact ⟨ht, hmc⟩

/-- Claim C9: constructing an `Expr` never fails (the constructor is a
total function storing the raw text), and `Expr.test` raises
MalformedClause for a clause text `t` exactly when evaluation reaches `t`
as a clause substring and `t` does not match the `$.path op value`
grammar; in particular a malformed clause that short-circuiting never
reaches raises no error. -/
theorem c9_lazy_malformed (args : List Char) (o : Value) (t : List Char) :
    Expr.test ⟨args⟩ o = Except.error (EvalErr.malformedClause t)
      ↔ (t ∈ (testInstr args o).2
          ∧ matchClause (pyStrip t) = Option.none) := by
  unfold Expr.test testInstr
  by_cases hc : (containsSub " AND ".data (args.map Char.toUpper) = false
      ∧ containsSub " OR ".data (args.map Char.toUpper) = false)
  · rw [if_pos hc, if_pos hc]
    cases he : evaluate_comparison o args with
    | error e => exact error_singleton_iff o args t e he
    | ok r =>
      constructor
      · intro h
        exact absurd h (by simp)
      · rintro ⟨hmem, hmc⟩
        have ht : t = args := by simpa using hmem
        rw [ht] at hmc
        exact absurd hmc (evaluate_ok_matches o args r he)
  · rw [if_neg hc, if_neg hc]
    cases hsplit : split_on_logical_ops args with
    | mk parts operators =>
      dsimp only
      cases he : evaluate_comparison o (parts.headD []) with
      | error e => exact error_singleton_iff o (parts.headD []) t e he
      | ok r0 =>
        rw [foldPairs_malformed_iff]
        constructor
        · rintro ⟨h1, h2⟩
          exact ⟨List.mem_cons_of_mem _ h1, h2⟩
        · rintro ⟨hmem, hmc⟩
          rcases List.mem_cons.mp hmem with ht | ht
          · rw [ht] at hmc
            exact absurd hmc (evaluate_ok_matches o (parts.headD []) r0 he)
          · exact ⟨ht, hmc⟩

/-! ### Type-shape helpers for the amended C3, C4 and C5 -/

/-- Is the value a container (list or dict)? -/
def isContainerV : Value → Bool
  | Value.list _ => true
  | Value.dict _ => true
  | _ => false

/-- Is the value numeric in the Python sense (bool, int or float)? -/
def isNumV (v : Value) : Bool := (numVal v).isSome

/-- Is the value a string? -/
def isStrV : Value → Bool
  | Value.str _ => true
  | _ => false

/-- Discriminator of the dynamic type of a value (the Python `type`). -/
def typeTag : Value → Nat
  | Value.none => 0
  | Value.bool _ => 1
  | Value.int _ => 2
  | Value.float _ => 3
  | Value.str _ => 4
  | Value.list _ => 5
  | Value.dict _ => 6

/-- Operand shapes a scalar ordering comparison accepts: both numeric or
both strings. -/
def comparableB (v w : Value) : Bool :=
  (isNumV v && isNumV w) || (isStrV v && isStrV w)

/-- Against a non-container right operand, `pyCmp` is undefined exactly on
the non-comparable shapes: not both numeric and not both strings. -/
theorem pyCmp_isNone_iff (v w : Value) (hw : isContainerV w = false) :
    (pyCmp v w = Option.none ↔ comparableB v w = false) := by
  cases v <;> cases w <;>
    simp_all [pyCmp, numVal, isNumV, isStrV, comparableB, isContainerV]

/-! ### C3 amended: the silent String fallback -/

/-- Claim C4 amended: an ordering comparison (Gt, Lt, Ge, Le) whose
literal text the sandboxed eval interprets as a non-container value fails
with Uncomparable exactly when the resolved field value and the literal
are not both numeric and not both strings — where numeric follows Python
and includes Booleans (as the integers 0 and 1); an absent field (the
`None` sentinel) is never comparable, so `$.missing.field > 1` against
the empty object fails.  (List literals such as `[0]` follow Python
elementwise list ordering instead and may succeed; see the witness.) -/
theorem c4_uncomparable_iff (o : Value) (e f vt : List Char) (op : CompOp)
    (l : Value)
    (hm : matchClause (pyStrip e) = some (f, op, vt))
    (hop : op = CompOp.gt ∨ op = CompOp.lt ∨ op = CompOp.ge ∨ op = CompOp.le)
    (hl : pyEvalRestricted vt = some l)
    (hc : isContainerV l = false) :
    (evaluate_comparison o e = Except.error EvalErr.uncomparable
      ↔ comparableB (pydashGet o f) l = false) := by
  have hlit : evalLiteral vt = l := by
    unfold evalLiteral
    rw [hl]
  have hiff := pyCmp_isNone_iff (pydashGet o f) l hc
  unfold evaluate_comparison
  rw [hm]
  rcases hop with h | h | h | h <;> subst h <;> dsimp only <;> rw [hlit] <;>
    (cases hcmp : pyCmp (pydashGet o f) l with
     | none =>
       have hcf : comparableB (pydashGet o f) l = false := hiff.mp hcmp
       simp [hcmp, hcf]
     | some ord =>
       have hct : ¬comparableB (pydashGet o f) l = false := by
         intro hcf
         have h2 := hiff.mpr hcf
         rw [hcmp] at h2
         exact Option.noConfusion h2
       simp [hcmp, hct])

/-- Witness for the amended C4: `$.missing.field > 1` on the empty object
fails with Uncomparable, while the list comparison `$.x > [0]` on
`x = [1]` succeeds with `true` under Python list ordering. -/
theorem c4_uncomparable_iff_witness :
    (evaluate_comparison (Value.dict []) "$.missing.field > 1".data
        = Except.error EvalErr.uncomparable)
      ∧ evaluate_comparison (Value.dict [("x".data, Value.list [Value.int 1])])
          "$.x > [0]".data = Except.ok true :=
  ⟨(c4_uncomparable_iff (Value.dict []) "$.missing.field > 1".data
      "missing.field".data "1".data CompOp.gt (Value.int 1)
      rfl (Or.inl rfl) rfl rfl).mpr rfl,
   rfl⟩

/-! ### C5 amended: Eq and Ne are total -/

/-- Claim C5 amended: Eq and Ne comparisons never fail — for every object
and every clause that parses with Eq or Ne, evaluation returns `ok` of the
(possibly negated) value equality — and operands of different dynamic type
compare unequal except across the numeric types, where Python equates by
numeric value (so `True == 1` and `1 == 1.0` hold); in particular
`$.missing.field == 1` on the empty object is `false` with no error. -/
theorem c5_eq_ne_total (o : Value) (e f vt : List Char) (op : CompOp)
    (hm : matchClause (pyStrip e) = some (f, op, vt))
    (hop : op = CompOp.eq ∨ op = CompOp.ne) :
    (evaluate_comparison o e
        = Except.ok (if op = CompOp.eq
            then pyEq (pydashGet o f) (evalLiteral vt)
            else !pyEq (pydashGet o f) (evalLiteral vt)))
      ∧ (∀ v w : Value, typeTag v ≠ typeTag w
          → ¬(isNumV v = true ∧ isNumV w = true) → pyEq v w = false) := by
  constructor
  · unfold evaluate_comparison
    rw [hm]
    rcases hop with h | h <;> subst h <;> simp
  · intro v w ht hn
    cases v <;> cases w <;> simp_all [pyEq, numVal, isNumV, typeTag]

/-- Witness for the amended C5: `$.missing.field == 1` on the empty object
returns `false` with no error. -/
theorem c5_eq_ne_total_witness :
    evaluate_comparison (Value.dict []) "$.missing.field == 1".data
      = Except.ok false :=
  (c5_eq_ne_total (Value.dict []) "$.missing.field == 1".data
      "missing.field".data "1".data CompOp.eq rfl (Or.inl rfl)).1

end Predicates
